import Mathlib

/-!
Shallow embedding of the cache-and-synchronization core of the
SumireVoxBot repository (files src/core/cache.py and src/core/database.py),
together with theorems settling the frozen claims about it.

Modelling conventions:
* Python float timestamps produced by time.time() are modelled as natural
  numbers; every operation that reads the clock takes the current time as
  an explicit argument.
* Python dict objects (which preserve insertion order, replace in place on
  assignment to an existing key, and delete a single binding) are modelled
  as association lists with the helpers kget / kset / kdel below.
* async methods are modelled as pure state-passing functions; the asyncio
  locks serialize each operation, so one Lean function application models
  one completed Python call.
-/

namespace SumireVox

/-- Keys of an association list (the Python dict keys, in order). -/
def kkeys {α : Type} (l : List (Nat × α)) : List Nat :=
  l.map Prod.fst

/-- Python dict lookup `d.get(k)`: first binding of the key, if any. -/
def kget {α : Type} (l : List (Nat × α)) (k : Nat) : Option α :=
  match l with
  | [] => none
  | (k₁, v) :: rest => if k₁ = k then some v else kget rest k

/-- Python dict assignment `d[k] = v`: replace the binding in place if the
key is present, otherwise append the new binding at the end. -/
def kset {α : Type} (l : List (Nat × α)) (k : Nat) (v : α) : List (Nat × α) :=
  match l with
  | [] => [(k, v)]
  | (k₁, v₁) :: rest =>
      if k₁ = k then (k, v) :: rest else (k₁, v₁) :: kset rest k v

/-- Python dict deletion `del d[k]`: remove the first binding of the key. -/
def kdel {α : Type} (l : List (Nat × α)) (k : Nat) : List (Nat × α) :=
  match l with
  | [] => []
  | (k₁, v₁) :: rest =>
      if k₁ = k then rest else (k₁, v₁) :: kdel rest k

/-- Cache entry with TTL bookkeeping (class CacheEntry in src/core/cache.py). -/
structure CacheEntry (V : Type) where
  value : V
  created_at : Nat
  last_accessed : Nat
deriving DecidableEq, Repr

/-- CacheEntry.is_expired: `time.time() - self.created_at > ttl_seconds`. -/
def CacheEntry.is_expired {V : Type} (e : CacheEntry V) (ttl_seconds now : Nat) : Bool :=
  decide (ttl_seconds < now - e.created_at)

/-- CacheEntry.touch: update the last-access time. -/
def CacheEntry.touch {V : Type} (e : CacheEntry V) (now : Nat) : CacheEntry V :=
  { e with last_accessed := now }

/-- TTL + LRU cache (class LRUCache in src/core/cache.py).  The Python
dict `_data` is the association list `data`. -/
structure LRUCache (V : Type) where
  data : List (Nat × CacheEntry V)
  max_size : Nat
  ttl_seconds : Nat
deriving DecidableEq, Repr

namespace LRUCache

/-- Comparison used by the eviction sort: by last-access time ascending. -/
def byLastAccessed {V : Type} (p q : Nat × CacheEntry V) : Bool :=
  decide (p.2.last_accessed ≤ q.2.last_accessed)

/-- LRUCache._evict_if_needed: if over capacity, first delete every expired
entry, then, if still over capacity, delete the `len - max_size` entries
with the smallest last-access time (stable sort, as Python sorted). -/
def evict_if_needed {V : Type} (c : LRUCache V) (now : Nat) : LRUCache V :=
  if c.data.length ≤ c.max_size then c
  else
    let alive := c.data.filter (fun p => !(p.2.is_expired c.ttl_seconds now))
    if alive.length ≤ c.max_size then { c with data := alive }
    else
      let sorted_items := alive.mergeSort byLastAccessed
      let items_to_remove := alive.length - c.max_size
      let removed_keys := kkeys (sorted_items.take items_to_remove)
      { c with data := alive.filter (fun p => !(removed_keys.contains p.1)) }

/-- LRUCache.get: absent or expired keys yield none (an expired entry is
deleted on the spot); on a hit the entry is touched and its value returned. -/
def get {V : Type} (c : LRUCache V) (k now : Nat) : Option V × LRUCache V :=
  match kget c.data k with
  | none => (none, c)
  | some e =>
      if e.is_expired c.ttl_seconds now then
        (none, { c with data := kdel c.data k })
      else
        (some e.value, { c with data := kset c.data k (e.touch now) })

/-- LRUCache.get_sync: same as get but an expired entry is left in place. -/
def get_sync {V : Type} (c : LRUCache V) (k now : Nat) : Option V × LRUCache V :=
  match kget c.data k with
  | none => (none, c)
  | some e =>
      if e.is_expired c.ttl_seconds now then (none, c)
      else (some e.value, { c with data := kset c.data k (e.touch now) })

/-- LRUCache.set: store a fresh entry, then evict if over capacity. -/
def set {V : Type} (c : LRUCache V) (k : Nat) (v : V) (now : Nat) : LRUCache V :=
  evict_if_needed { c with data := kset c.data k ⟨v, now, now⟩ } now

/-- LRUCache.set_sync: store a fresh entry without any eviction. -/
def set_sync {V : Type} (c : LRUCache V) (k : Nat) (v : V) (now : Nat) : LRUCache V :=
  { c with data := kset c.data k ⟨v, now, now⟩ }

/-- LRUCache.delete: remove the key if present, report whether it existed. -/
def delete {V : Type} (c : LRUCache V) (k : Nat) : Bool × LRUCache V :=
  if (kget c.data k).isSome then (true, { c with data := kdel c.data k })
  else (false, c)

/-- LRUCache.clear. -/
def clear {V : Type} (c : LRUCache V) : LRUCache V :=
  { c with data := [] }

end LRUCache

/-- Per-guild settings record (class GuildSettings in src/core/models.py),
with the pydantic field defaults.  The nested auto-join configuration maps a
bot identity to voice/text channel references. -/
structure GuildSettings where
  auto_join : Bool := false
  auto_join_config : List (String × (Nat × Nat)) := []
  max_chars : Nat := 50
  read_vc_status : Bool := false
  read_mention : Bool := true
  read_emoji : Bool := true
  add_suffix : Bool := false
  read_romaji : Bool := false
  read_attachments : Bool := true
  skip_code_blocks : Bool := true
  skip_urls : Bool := true
deriving DecidableEq, Repr

/-- GuildSettings.model_validate: pydantic validation of a raw record; the
constrained field is max_chars with bounds ge=10, le=500, so an
out-of-range value makes decoding fail. -/
def GuildSettings.model_validate (r : GuildSettings) : Option GuildSettings :=
  if 10 ≤ r.max_chars ∧ r.max_chars ≤ 500 then some r else none

/-- Per-user voice profile, the dict {speaker, speed, pitch} kept by
Database.get_user_setting; speed and pitch are modelled as rationals. -/
structure UserProfile where
  speaker : Nat
  speed : Rat
  pitch : Rat
deriving DecidableEq, Repr

/-- A guild dictionary: mapping from surface text to replacement text. -/
abbrev GuildDictData : Type := List (String × String)

/-- In-memory cache manager (class SettingsCache in src/core/cache.py):
one LRUCache per entity kind, the separately managed global dictionary,
the set of guilds currently in a voice session, and bookkeeping flags. -/
structure SettingsCache where
  guild_settings : LRUCache GuildSettings
  user_settings : LRUCache UserProfile
  boost_counts : LRUCache Nat
  dictionaries : LRUCache GuildDictData
  global_dict : Option GuildDictData
  global_dict_id : Nat
  active_voice_guilds : List Nat
  initialized : Bool
  cache_version : Nat
deriving DecidableEq, Repr

namespace SettingsCache

/-- Cache TTL constant GUILD_SETTINGS_TTL (seconds). -/
def GUILD_SETTINGS_TTL : Nat := 3600
/-- Cache TTL constant USER_SETTINGS_TTL (seconds). -/
def USER_SETTINGS_TTL : Nat := 3600
/-- Cache TTL constant BOOST_COUNT_TTL (seconds). -/
def BOOST_COUNT_TTL : Nat := 1800
/-- Cache TTL constant DICT_TTL (seconds). -/
def DICT_TTL : Nat := 7200
/-- Capacity constant MAX_GUILD_SETTINGS. -/
def MAX_GUILD_SETTINGS : Nat := 50000
/-- Capacity constant MAX_USER_SETTINGS. -/
def MAX_USER_SETTINGS : Nat := 100000
/-- Capacity constant MAX_BOOST_COUNTS. -/
def MAX_BOOST_COUNTS : Nat := 50000
/-- Capacity constant MAX_DICTIONARIES. -/
def MAX_DICTIONARIES : Nat := 1000

/-- SettingsCache.__init__: empty caches with the configured capacities
and TTLs, no global dictionary, global dictionary id 0, no active guilds. -/
def init : SettingsCache where
  guild_settings := ⟨[], MAX_GUILD_SETTINGS, GUILD_SETTINGS_TTL⟩
  user_settings := ⟨[], MAX_USER_SETTINGS, USER_SETTINGS_TTL⟩
  boost_counts := ⟨[], MAX_BOOST_COUNTS, BOOST_COUNT_TTL⟩
  dictionaries := ⟨[], MAX_DICTIONARIES, DICT_TTL⟩
  global_dict := none
  global_dict_id := 0
  active_voice_guilds := []
  initialized := false
  cache_version := 0

/-- SettingsCache.get_guild_settings. -/
def get_guild_settings (c : SettingsCache) (guild_id now : Nat) :
    Option GuildSettings × SettingsCache :=
  let r := c.guild_settings.get guild_id now
  (r.1, { c with guild_settings := r.2 })

/-- SettingsCache.set_guild_settings. -/
def set_guild_settings (c : SettingsCache) (guild_id : Nat)
    (settings : GuildSettings) (now : Nat) : SettingsCache :=
  { c with guild_settings := c.guild_settings.set guild_id settings now }

/-- SettingsCache.invalidate_guild_settings. -/
def invalidate_guild_settings (c : SettingsCache) (guild_id : Nat) : SettingsCache :=
  { c with guild_settings := (c.guild_settings.delete guild_id).2 }

/-- SettingsCache.get_user_setting. -/
def get_user_setting (c : SettingsCache) (user_id now : Nat) :
    Option UserProfile × SettingsCache :=
  let r := c.user_settings.get user_id now
  (r.1, { c with user_settings := r.2 })

/-- SettingsCache.set_user_setting. -/
def set_user_setting (c : SettingsCache) (user_id : Nat) (data : UserProfile)
    (now : Nat) : SettingsCache :=
  { c with user_settings := c.user_settings.set user_id data now }

/-- SettingsCache.invalidate_user_setting. -/
def invalidate_user_setting (c : SettingsCache) (user_id : Nat) : SettingsCache :=
  { c with user_settings := (c.user_settings.delete user_id).2 }

/-- SettingsCache.get_boost_count. -/
def get_boost_count (c : SettingsCache) (guild_id now : Nat) :
    Option Nat × SettingsCache :=
  let r := c.boost_counts.get guild_id now
  (r.1, { c with boost_counts := r.2 })

/-- SettingsCache.set_boost_count. -/
def set_boost_count (c : SettingsCache) (guild_id count now : Nat) : SettingsCache :=
  { c with boost_counts := c.boost_counts.set guild_id count now }

/-- SettingsCache.invalidate_boost_count. -/
def invalidate_boost_count (c : SettingsCache) (guild_id : Nat) : SettingsCache :=
  { c with boost_counts := (c.boost_counts.delete guild_id).2 }

/-- SettingsCache.get_dict: the global dictionary is served from its own
slot, ignoring TTL and eviction; other identifiers go through the LRU. -/
def get_dict (c : SettingsCache) (guild_id now : Nat) :
    Option GuildDictData × SettingsCache :=
  if guild_id = c.global_dict_id then (c.global_dict, c)
  else
    let r := c.dictionaries.get guild_id now
    (r.1, { c with dictionaries := r.2 })

/-- SettingsCache.set_dict. -/
def set_dict (c : SettingsCache) (guild_id : Nat) (data : GuildDictData)
    (now : Nat) : SettingsCache :=
  if guild_id = c.global_dict_id then { c with global_dict := some data }
  else { c with dictionaries := c.dictionaries.set guild_id data now }

/-- SettingsCache.invalidate_dict: immediate removal, clearing the global
slot when the identifier is the global one. -/
def invalidate_dict (c : SettingsCache) (guild_id : Nat) : SettingsCache :=
  if guild_id = c.global_dict_id then { c with global_dict := none }
  else { c with dictionaries := (c.dictionaries.delete guild_id).2 }

/-- SettingsCache.remove_dict: unload on voice-session end; the global
dictionary is never removed. -/
def remove_dict (c : SettingsCache) (guild_id : Nat) : SettingsCache :=
  if guild_id = c.global_dict_id then c
  else { c with dictionaries := (c.dictionaries.delete guild_id).2 }

/-- SettingsCache.is_dict_loaded (the get_sync call touches the entry, so
the possibly updated cache is returned alongside the flag). -/
def is_dict_loaded (c : SettingsCache) (guild_id now : Nat) : Bool × SettingsCache :=
  if guild_id = c.global_dict_id then (c.global_dict.isSome, c)
  else
    let r := c.dictionaries.get_sync guild_id now
    (r.1.isSome, { c with dictionaries := r.2 })

/-- SettingsCache.add_active_guild (Python set.add). -/
def add_active_guild (c : SettingsCache) (guild_id : Nat) : SettingsCache :=
  if guild_id ∈ c.active_voice_guilds then c
  else { c with active_voice_guilds := guild_id :: c.active_voice_guilds }

/-- SettingsCache.remove_active_guild (Python set.discard). -/
def remove_active_guild (c : SettingsCache) (guild_id : Nat) : SettingsCache :=
  { c with active_voice_guilds := c.active_voice_guilds.filter (fun g => g ≠ guild_id) }

/-- SettingsCache.is_guild_active. -/
def is_guild_active (c : SettingsCache) (guild_id : Nat) : Bool :=
  decide (guild_id ∈ c.active_voice_guilds)

end SettingsCache

/-- The relational store behind the gateway, one table per entity kind.
Rows are modelled as already-typed records: guild-settings rows are only
ever written from validated models, so the JSON decode step of the read
path cannot fail and is subsumed in the typed row.  The boosts table maps
a guild to its boost-row count (the value the COUNT query returns). -/
structure Storage where
  guild_settings : List (Nat × GuildSettings)
  user_settings : List (Nat × UserProfile)
  dicts : List (Nat × GuildDictData)
  boosts : List (Nat × Nat)
deriving DecidableEq, Repr

/-- Operation tag of a change-feed event. -/
inductive ChangeOp where
  | insert
  | update
  | delete
deriving DecidableEq, Repr

/-- The persistence gateway (class Database in src/core/database.py):
its cache plus a counter of storage read calls (conn.fetchrow and
conn.fetchval), used to express the zero-storage-read properties. -/
structure Database where
  cache : SettingsCache
  reads : Nat
deriving DecidableEq, Repr

namespace Database

/-- Database.get_guild_settings: cache hit returns the cached value; on a
miss the row is fetched and cached; when storage has no row the default
settings are returned and, per the source comment, not cached. -/
def get_guild_settings (db : Database) (st : Storage) (guild_id now : Nat) :
    GuildSettings × Database :=
  let r := db.cache.get_guild_settings guild_id now
  match r.1 with
  | some cached => (cached, { db with cache := r.2 })
  | none =>
      let db₁ : Database := { db with cache := r.2, reads := db.reads + 1 }
      match kget st.guild_settings guild_id with
      | some row =>
          (row, { db₁ with cache := db₁.cache.set_guild_settings guild_id row now })
      | none => ({}, db₁)

/-- Database.set_guild_settings: persist the record, then write through to
the cache (the write is conn.execute, not a storage read). -/
def set_guild_settings (db : Database) (st : Storage) (guild_id : Nat)
    (settings : GuildSettings) (now : Nat) : Storage × Database :=
  ({ st with guild_settings := kset st.guild_settings guild_id settings },
   { db with cache := db.cache.set_guild_settings guild_id settings now })

/-- Database.get_user_setting: as get_guild_settings; the default profile
{speaker 1, speed 1.0, pitch 0.0} is returned uncached when no row exists. -/
def get_user_setting (db : Database) (st : Storage) (user_id now : Nat) :
    UserProfile × Database :=
  let r := db.cache.get_user_setting user_id now
  match r.1 with
  | some cached => (cached, { db with cache := r.2 })
  | none =>
      let db₁ : Database := { db with cache := r.2, reads := db.reads + 1 }
      match kget st.user_settings user_id with
      | some row =>
          (row, { db₁ with cache := db₁.cache.set_user_setting user_id row now })
      | none => (⟨1, 1, 0⟩, db₁)

/-- Database.get_dict: identifier 0 short-circuits to the empty mapping
before any cache or storage access; otherwise cache hit returns, and a
miss fetches the row, caching it only for active guilds or the global id. -/
def get_dict (db : Database) (st : Storage) (guild_id now : Nat) :
    GuildDictData × Database :=
  if guild_id = 0 then ([], db)
  else
    let r := db.cache.get_dict guild_id now
    match r.1 with
    | some cached => (cached, { db with cache := r.2 })
    | none =>
        let db₁ : Database := { db with cache := r.2, reads := db.reads + 1 }
        match kget st.dicts guild_id with
        | some raw =>
            if db₁.cache.is_guild_active guild_id
                || guild_id = db₁.cache.global_dict_id then
              (raw, { db₁ with cache := db₁.cache.set_dict guild_id raw now })
            else (raw, db₁)
        | none => ([], db₁)

/-- Database.get_guild_boost_count: cache hit returns; a miss fetches the
count (absent row counts as 0) and always caches the result. -/
def get_guild_boost_count (db : Database) (st : Storage) (guild_id now : Nat) :
    Nat × Database :=
  let r := db.cache.get_boost_count guild_id now
  match r.1 with
  | some cached => (cached, { db with cache := r.2 })
  | none =>
      let db₁ : Database := { db with cache := r.2, reads := db.reads + 1 }
      let count := match kget st.boosts guild_id with
        | some c => c
        | none => 0
      (count, { db₁ with cache := db₁.cache.set_boost_count guild_id count now })

/-- Database.load_guild_dict: mark the guild active; if its dictionary is
not already loaded, fetch it (empty mapping when no row) and cache it. -/
def load_guild_dict (db : Database) (st : Storage) (guild_id now : Nat) : Database :=
  let c₁ := db.cache.add_active_guild guild_id
  let ld := c₁.is_dict_loaded guild_id now
  if ld.1 then { db with cache := ld.2 }
  else
    let db₁ : Database := { db with cache := ld.2, reads := db.reads + 1 }
    match kget st.dicts guild_id with
    | some raw => { db₁ with cache := db₁.cache.set_dict guild_id raw now }
    | none => { db₁ with cache := db₁.cache.set_dict guild_id [] now }

/-- Database.unload_guild_dict: remove the guild from the active set, then
remove its dictionary (remove_dict leaves the global dictionary alone). -/
def unload_guild_dict (db : Database) (guild_id : Nat) : Database :=
  { db with cache := (db.cache.remove_active_guild guild_id).remove_dict guild_id }

/-- Database._reload_dict: re-fetch a dictionary from storage and store it
in the cache (empty mapping when no row exists). -/
def reload_dict (db : Database) (st : Storage) (guild_id now : Nat) : Database :=
  let db₁ : Database := { db with reads := db.reads + 1 }
  match kget st.dicts guild_id with
  | some raw => { db₁ with cache := db₁.cache.set_dict guild_id raw now }
  | none => { db₁ with cache := db₁.cache.set_dict guild_id [] now }

/-- Database._handle_guild_settings_change: DELETE invalidates; otherwise
the payload is decoded with model_validate and stored, and a missing or
undecodable payload falls back to invalidation (the except branch). -/
def handle_guild_settings_change (db : Database) (op : ChangeOp) (guild_id : Nat)
    (data : Option GuildSettings) (now : Nat) : Database :=
  if op = ChangeOp.delete then
    { db with cache := db.cache.invalidate_guild_settings guild_id }
  else
    match data with
    | some raw =>
        match raw.model_validate with
        | some settings =>
            { db with cache := db.cache.set_guild_settings guild_id settings now }
        | none => { db with cache := db.cache.invalidate_guild_settings guild_id }
    | none => { db with cache := db.cache.invalidate_guild_settings guild_id }

/-- Database._handle_user_settings_change: DELETE invalidates; otherwise a
decoded payload is stored directly; `some none` models a payload string
whose JSON decode raises, handled by the except branch as invalidation. -/
def handle_user_settings_change (db : Database) (op : ChangeOp) (user_id : Nat)
    (data : Option (Option UserProfile)) (now : Nat) : Database :=
  if op = ChangeOp.delete then
    { db with cache := db.cache.invalidate_user_setting user_id }
  else
    match data with
    | some (some profile) =>
        { db with cache := db.cache.set_user_setting user_id profile now }
    | _ => { db with cache := db.cache.invalidate_user_setting user_id }

/-- Database._handle_dict_change: for the global identifier, DELETE stores
the empty mapping and any other operation reloads from storage; for other
identifiers the dictionary is invalidated when the guild is active and the
event is ignored otherwise. -/
def handle_dict_change (db : Database) (st : Storage) (op : ChangeOp)
    (guild_id now : Nat) : Database :=
  if guild_id = db.cache.global_dict_id then
    if op = ChangeOp.delete then
      { db with cache := db.cache.set_dict guild_id [] now }
    else db.reload_dict st guild_id now
  else
    if db.cache.is_guild_active guild_id then
      { db with cache := db.cache.invalidate_dict guild_id }
    else db

/-- Database._handle_boost_change: a payload carrying a count field sets
the cache to that absolute value; otherwise the count is invalidated (the
operation tag is not inspected).  `some none` models a data object without
a count field. -/
def handle_boost_change (db : Database) (_op : ChangeOp) (guild_id : Nat)
    (data : Option (Option Nat)) (now : Nat) : Database :=
  match data with
  | some (some count) =>
      { db with cache := db.cache.set_boost_count guild_id count now }
  | _ => { db with cache := db.cache.invalidate_boost_count guild_id }

end Database

/-! ## Association-list lemmas -/

theorem kget_kset_self {α : Type} (l : List (Nat × α)) (k : Nat) (v : α) :
    kget (kset l k v) k = some v := by
  induction l with
  | nil => simp [kset, kget]
  | cons hd tl ih =>
      by_cases h : hd.1 = k
      · simp [kset, h, kget]
      · simpa [kset, h, kget] using ih

theorem kget_mem {α : Type} {l : List (Nat × α)} {k : Nat} {v : α}
    (h : kget l k = some v) : (k, v) ∈ l := by
  induction l with
  | nil => simp [kget] at h
  | cons hd tl ih =>
      obtain ⟨k₁, v₁⟩ := hd
      by_cases hk : k₁ = k
      · rw [kget, if_pos hk] at h
        injection h with h
        subst hk
        subst h
        exact List.mem_cons_self _ _
      · rw [kget, if_neg hk] at h
        exact List.mem_cons_of_mem _ (ih h)

theorem mem_kkeys {α : Type} {l : List (Nat × α)} {p : Nat × α}
    (h : p ∈ l) : p.1 ∈ kkeys l :=
  List.mem_map.mpr ⟨p, h, rfl⟩

theorem kkeys_cons {α : Type} (k₁ : Nat) (v₁ : α) (tl : List (Nat × α)) :
    kkeys ((k₁, v₁) :: tl) = k₁ :: kkeys tl := rfl

theorem mem_kget {α : Type} {l : List (Nat × α)} {k : Nat} {v : α}
    (hnd : (kkeys l).Nodup) (h : (k, v) ∈ l) : kget l k = some v := by
  induction l with
  | nil => simp at h
  | cons hd tl ih =>
      obtain ⟨k₁, v₁⟩ := hd
      rw [kkeys_cons, List.nodup_cons] at hnd
      rcases List.mem_cons.mp h with h₁ | h₁
      · injection h₁ with h₂ h₃
        subst h₂
        rw [kget, if_pos rfl, h₃]
      · have hk : k₁ ≠ k := by
          intro he
          exact hnd.1 (he.symm ▸ mem_kkeys h₁)
        rw [kget, if_neg hk]
        exact ih hnd.2 h₁

theorem kset_mem {α : Type} {l : List (Nat × α)} {k : Nat} {v : α}
    {p : Nat × α} (h : p ∈ kset l k v) : p = (k, v) ∨ p ∈ l := by
  induction l with
  | nil => simpa [kset] using h
  | cons hd tl ih =>
      obtain ⟨k₁, v₁⟩ := hd
      by_cases hk : k₁ = k
      · rw [kset, if_pos hk] at h
        rcases List.mem_cons.mp h with h₁ | h₁
        · left; exact h₁
        · right; exact List.mem_cons_of_mem _ h₁
      · rw [kset, if_neg hk] at h
        rcases List.mem_cons.mp h with h₁ | h₁
        · right; exact h₁ ▸ List.mem_cons_self _ _
        · rcases ih h₁ with h₂ | h₂
          · left; exact h₂
          · right; exact List.mem_cons_of_mem _ h₂

theorem kset_self_mem {α : Type} (l : List (Nat × α)) (k : Nat) (v : α) :
    (k, v) ∈ kset l k v :=
  kget_mem (kget_kset_self l k v)

theorem kset_mem_of_ne {α : Type} {l : List (Nat × α)} {k : Nat} {v : α}
    {p : Nat × α} (h : p ∈ kset l k v) (hne : p.1 ≠ k) : p ∈ l := by
  rcases kset_mem h with h₁ | h₁
  · exact absurd (by rw [h₁]) hne
  · exact h₁

theorem kkeys_kset_subset {α : Type} {l : List (Nat × α)} {k : Nat} {v : α}
    {a : Nat} (h : a ∈ kkeys (kset l k v)) : a ∈ kkeys l ∨ a = k := by
  rw [kkeys, List.mem_map] at h
  obtain ⟨p, hp, hpa⟩ := h
  rcases kset_mem hp with h₁ | h₁
  · right
    rw [h₁] at hpa
    exact hpa.symm
  · left
    exact hpa ▸ mem_kkeys h₁

theorem kset_nodup {α : Type} {l : List (Nat × α)} (k : Nat) (v : α)
    (hnd : (kkeys l).Nodup) : (kkeys (kset l k v)).Nodup := by
  induction l with
  | nil => simp [kset, kkeys]
  | cons hd tl ih =>
      obtain ⟨k₁, v₁⟩ := hd
      rw [kkeys_cons, List.nodup_cons] at hnd
      by_cases hk : k₁ = k
      · subst hk
        rw [kset, if_pos rfl, kkeys_cons, List.nodup_cons]
        exact hnd
      · rw [kset, if_neg hk, kkeys_cons, List.nodup_cons]
        refine ⟨?_, ih hnd.2⟩
        intro hmem
        rcases kkeys_kset_subset hmem with h₁ | h₁
        · exact hnd.1 h₁
        · exact hk h₁

theorem kdel_sublist {α : Type} (l : List (Nat × α)) (k : Nat) :
    (kdel l k).Sublist l := by
  induction l with
  | nil => simp [kdel]
  | cons hd tl ih =>
      obtain ⟨k₁, v₁⟩ := hd
      by_cases hk : k₁ = k
      · rw [kdel, if_pos hk]
        exact List.sublist_cons_self _ _
      · rw [kdel, if_neg hk]
        exact ih.cons₂ _

theorem kget_kdel_self {α : Type} {l : List (Nat × α)} {k : Nat}
    (hnd : (kkeys l).Nodup) : kget (kdel l k) k = none := by
  induction l with
  | nil => simp [kdel, kget]
  | cons hd tl ih =>
      obtain ⟨k₁, v₁⟩ := hd
      rw [kkeys_cons, List.nodup_cons] at hnd
      by_cases hk : k₁ = k
      · rw [kdel, if_pos hk]
        cases hmem : kget tl k with
        | none => rfl
        | some v =>
            subst hk
            exact absurd (mem_kkeys (kget_mem hmem)) hnd.1
      · rw [kdel, if_neg hk, kget, if_neg hk]
        exact ih hnd.2

theorem nodup_key_inj {α : Type} {l : List (Nat × α)} (hnd : (kkeys l).Nodup)
    {p q : Nat × α} (hp : p ∈ l) (hq : q ∈ l) (h : p.1 = q.1) : p = q := by
  have h₁ : kget l p.1 = some p.2 := mem_kget hnd (Prod.mk.eta ▸ hp)
  have h₂ : kget l p.1 = some q.2 := by
    rw [h]
    exact mem_kget hnd (Prod.mk.eta ▸ hq)
  rw [h₁] at h₂
  injection h₂ with h₃
  exact Prod.ext h h₃

/-! ## Eviction lemmas -/

namespace LRUCache

theorem byLastAccessed_trans {V : Type} (a b c : Nat × CacheEntry V)
    (h₁ : byLastAccessed a b = true) (h₂ : byLastAccessed b c = true) :
    byLastAccessed a c = true := by
  simp only [byLastAccessed, decide_eq_true_eq] at h₁ h₂ ⊢
  omega

theorem byLastAccessed_total {V : Type} (a b : Nat × CacheEntry V) :
    (byLastAccessed a b || byLastAccessed b a) = true := by
  simp only [byLastAccessed, Bool.or_eq_true, decide_eq_true_eq]
  omega

theorem evict_data_sublist {V : Type} (c : LRUCache V) (now : Nat) :
    (c.evict_if_needed now).data.Sublist c.data := by
  simp only [evict_if_needed]
  split
  · exact List.Sublist.refl _
  · split
    · exact List.filter_sublist _
    · exact (List.filter_sublist _).trans (List.filter_sublist _)

theorem evict_max_eq {V : Type} (c : LRUCache V) (now : Nat) :
    (c.evict_if_needed now).max_size = c.max_size := by
  simp only [evict_if_needed]
  split
  · rfl
  · split <;> rfl

theorem evict_ttl_eq {V : Type} (c : LRUCache V) (now : Nat) :
    (c.evict_if_needed now).ttl_seconds = c.ttl_seconds := by
  simp only [evict_if_needed]
  split
  · rfl
  · split <;> rfl

theorem evict_length_le {V : Type} (c : LRUCache V) (now : Nat)
    (h : c.max_size < c.data.length) :
    (c.evict_if_needed now).data.length ≤ c.max_size := by
  simp only [evict_if_needed]
  rw [if_neg (by omega)]
  set alive := c.data.filter (fun p => !(p.2.is_expired c.ttl_seconds now)) with halive
  by_cases h₂ : alive.length ≤ c.max_size
  · rw [if_pos h₂]
    exact h₂
  · rw [if_neg h₂]
    set n := alive.length - c.max_size with hn
    set s := alive.mergeSort byLastAccessed with hs
    set pred := fun p : Nat × CacheEntry V => !((kkeys (s.take n)).contains p.1)
      with hpred
    have hperm : s.Perm alive := List.mergeSort_perm alive byLastAccessed
    have hflen : (alive.filter pred).length = (s.filter pred).length :=
      (hperm.filter pred).symm.length_eq
    have htail : (s.take n).filter pred = [] := by
      rw [List.filter_eq_nil_iff]
      intro p hp
      simp only [hpred, Bool.not_eq_true', Bool.not_eq_false, List.contains,
        List.elem_iff]
      exact mem_kkeys hp
    have hsplit : (s.take n) ++ (s.drop n) = s := List.take_append_drop n s
    have hlen₂ : (s.filter pred).length ≤ s.length - n := by
      calc (s.filter pred).length
          = ((s.take n).filter pred ++ (s.drop n).filter pred).length := by
            rw [← List.filter_append, hsplit]
        _ = ((s.drop n).filter pred).length := by rw [htail]; simp
        _ ≤ (s.drop n).length := (List.filter_sublist _).length_le
        _ = s.length - n := List.length_drop n s
    have hslen : s.length = alive.length := hperm.length_eq
    show (alive.filter pred).length ≤ c.max_size
    omega

theorem evict_keeps {V : Type} (c : LRUCache V) (now k : Nat) (e : CacheEntry V)
    (hmem : (k, e) ∈ c.data) (hnd : (kkeys c.data).Nodup)
    (hmax : 1 ≤ c.max_size)
    (hfresh : e.is_expired c.ttl_seconds now = false)
    (hlt : ∀ q ∈ c.data, q ≠ (k, e) → q.2.last_accessed < e.last_accessed) :
    (k, e) ∈ (c.evict_if_needed now).data := by
  simp only [evict_if_needed]
  split
  · exact hmem
  · set alive := c.data.filter (fun p => !(p.2.is_expired c.ttl_seconds now))
      with halive
    have hmem₁ : (k, e) ∈ alive :=
      List.mem_filter.mpr ⟨hmem, by rw [hfresh]; rfl⟩
    split
    · exact hmem₁
    · rename_i h₂
      set n := alive.length - c.max_size with hn
      set s := alive.mergeSort byLastAccessed with hs
      have hperm : s.Perm alive := List.mergeSort_perm alive byLastAccessed
      have hsub : alive.Sublist c.data := List.filter_sublist _
      have hndalive : (kkeys alive).Nodup :=
        List.Nodup.sublist (hsub.map Prod.fst) hnd
      have hnds : (kkeys s).Nodup :=
        ((hperm.map Prod.fst).nodup_iff).mpr hndalive
      have hsnodup : s.Nodup := List.Nodup.of_map Prod.fst hnds
      refine List.mem_filter.mpr ⟨hmem₁, ?_⟩
      simp only [Bool.not_eq_true', Bool.eq_false_iff, ne_eq, List.contains,
        List.elem_iff]
      intro hink
      obtain ⟨p, hp, hpk⟩ := List.mem_map.mp hink
      have hpmem : p ∈ s := (List.take_sublist n s).mem hp
      have hpq : p = (k, e) :=
        nodup_key_inj hnds hpmem
          ((hperm.mem_iff).mpr hmem₁) (by rw [hpk])
      have hp₁ : (k, e) ∈ s.take n := hpq ▸ hp
      have hslen : s.length = alive.length := hperm.length_eq
      have hdlen : 0 < (s.drop n).length := by
        rw [List.length_drop]
        omega
      obtain ⟨q, hq⟩ := List.exists_mem_of_length_pos hdlen
      have hsplit : (s.take n) ++ (s.drop n) = s := List.take_append_drop n s
      have hsnodup₁ : ((s.take n) ++ (s.drop n)).Nodup := by
        rw [hsplit]
        exact hsnodup
      have hdisj : (s.take n).Disjoint (s.drop n) :=
        ((List.nodup_append.mp hsnodup₁).2).2
      have hqne : q ≠ (k, e) := fun h => hdisj hp₁ (h ▸ hq)
      have hqmem : q ∈ c.data :=
        hsub.mem ((hperm.mem_iff).mp ((List.drop_sublist n s).mem hq))
      have hqlt : q.2.last_accessed < e.last_accessed := hlt q hqmem hqne
      have hsorted : List.Pairwise (fun a b => byLastAccessed a b = true) s :=
        List.sorted_mergeSort byLastAccessed_trans byLastAccessed_total alive
      have hsorted₁ :
          List.Pairwise (fun a b => byLastAccessed a b = true)
            ((s.take n) ++ (s.drop n)) := by
        rw [hsplit]
        exact hsorted
      have hle : byLastAccessed (k, e) q = true :=
        ((List.pairwise_append.mp hsorted₁).2).2 (k, e) hp₁ q hq
      simp only [byLastAccessed, decide_eq_true_eq] at hle
      omega

theorem set_max_eq {V : Type} (c : LRUCache V) (k : Nat) (v : V) (now : Nat) :
    (c.set k v now).max_size = c.max_size :=
  evict_max_eq _ now

theorem set_ttl_eq {V : Type} (c : LRUCache V) (k : Nat) (v : V) (now : Nat) :
    (c.set k v now).ttl_seconds = c.ttl_seconds :=
  evict_ttl_eq _ now

theorem set_data_mem {V : Type} {c : LRUCache V} {k : Nat} {v : V} {now : Nat}
    {p : Nat × CacheEntry V} (h : p ∈ (c.set k v now).data) :
    p = (k, ⟨v, now, now⟩) ∨ p ∈ c.data := by
  have h₁ : p ∈ kset c.data k ⟨v, now, now⟩ :=
    (evict_data_sublist _ now).mem h
  exact kset_mem h₁

theorem set_nodup {V : Type} {c : LRUCache V} (k : Nat) (v : V) (now : Nat)
    (hnd : (kkeys c.data).Nodup) : (kkeys (c.set k v now).data).Nodup :=
  List.Nodup.sublist ((evict_data_sublist _ now).map Prod.fst)
    (kset_nodup k _ hnd)

theorem kget_set_self {V : Type} (c : LRUCache V) (k : Nat) (v : V) (now : Nat)
    (hnd : (kkeys c.data).Nodup) (hmax : 1 ≤ c.max_size)
    (hlt : ∀ q ∈ c.data, q.1 ≠ k → q.2.last_accessed < now) :
    kget (c.set k v now).data k = some ⟨v, now, now⟩ := by
  unfold set
  set mid : LRUCache V := { c with data := kset c.data k ⟨v, now, now⟩ } with hmid
  have hnd₁ : (kkeys mid.data).Nodup := kset_nodup k _ hnd
  have hmem : (k, (⟨v, now, now⟩ : CacheEntry V)) ∈ mid.data :=
    kset_self_mem c.data k _
  have hfresh : (⟨v, now, now⟩ : CacheEntry V).is_expired mid.ttl_seconds now = false := by
    simp [CacheEntry.is_expired]
  have hlt₁ : ∀ q ∈ mid.data, q ≠ (k, (⟨v, now, now⟩ : CacheEntry V)) →
      q.2.last_accessed < (⟨v, now, now⟩ : CacheEntry V).last_accessed := by
    intro q hq hne
    by_cases hqk : q.1 = k
    · exact absurd (nodup_key_inj hnd₁ hq hmem hqk) hne
    · rcases kset_mem hq with h₁ | h₁
      · exact absurd h₁ hne
      · exact hlt q h₁ hqk
  have hsurv := evict_keeps mid now k _ hmem hnd₁ hmax hfresh hlt₁
  have hnd₂ : (kkeys (mid.evict_if_needed now).data).Nodup :=
    List.Nodup.sublist ((evict_data_sublist _ now).map Prod.fst) hnd₁
  exact mem_kget hnd₂ hsurv

theorem get_hit_of_kget {V : Type} (c : LRUCache V) (k now : Nat)
    (e : CacheEntry V) (h : kget c.data k = some e)
    (hfresh : e.is_expired c.ttl_seconds now = false) :
    c.get k now = (some e.value, { c with data := kset c.data k (e.touch now) }) := by
  simp [get, h, hfresh]

theorem get_miss_of_kget {V : Type} (c : LRUCache V) (k now : Nat)
    (h : kget c.data k = none) : c.get k now = (none, c) := by
  simp [get, h]

theorem fresh_not_expired {V : Type} (v : V) (ttl now : Nat) :
    (⟨v, now, now⟩ : CacheEntry V).is_expired ttl now = false := by
  simp [CacheEntry.is_expired]

theorem delete_data_sublist {V : Type} (c : LRUCache V) (k : Nat) :
    (c.delete k).2.data.Sublist c.data := by
  unfold delete
  split
  · exact kdel_sublist _ _
  · exact List.Sublist.refl _

theorem delete_max_eq {V : Type} (c : LRUCache V) (k : Nat) :
    (c.delete k).2.max_size = c.max_size := by
  unfold delete
  split <;> rfl

theorem delete_ttl_eq {V : Type} (c : LRUCache V) (k : Nat) :
    (c.delete k).2.ttl_seconds = c.ttl_seconds := by
  unfold delete
  split <;> rfl

theorem kget_delete_self {V : Type} (c : LRUCache V) (k : Nat)
    (hnd : (kkeys c.data).Nodup) : kget (c.delete k).2.data k = none := by
  unfold delete
  split
  · exact kget_kdel_self hnd
  · rename_i h
    exact Option.not_isSome_iff_eq_none.mp h

end LRUCache

/-! ## Claim theorems -/

/-- C1 (counterexample): the claimed capacity invariant fails for the
set_sync variant: on a cache of capacity 1, two set_sync calls with
distinct keys leave 2 entries stored, exceeding the capacity. -/
theorem C1_counterexample :
    ((((⟨[], 1, 3600⟩ : LRUCache Nat).set_sync 1 0 0).set_sync 2 0 0).data.length = 2) ∧
    ¬ ((((⟨[], 1, 3600⟩ : LRUCache Nat).set_sync 1 0 0).set_sync 2 0 0).data.length
        ≤ (⟨[], 1, 3600⟩ : LRUCache Nat).max_size) := by
  decide

/-- C1 (amended): after any asynchronous set completes, the number of
stored entries is at most the configured capacity, from any starting
state (hence after every sequence of such set calls); the synchronous
set_sync variant performs no eviction and is exempt. -/
theorem C1_amended_set_capacity {V : Type} (c : LRUCache V) (k : Nat) (v : V)
    (now : Nat) : (c.set k v now).data.length ≤ c.max_size := by
  unfold LRUCache.set
  set mid : LRUCache V := { c with data := kset c.data k ⟨v, now, now⟩ } with hmid
  by_cases h : mid.data.length ≤ c.max_size
  · have heq : mid.evict_if_needed now = mid := by
      simp only [LRUCache.evict_if_needed]
      rw [if_pos h]
    rw [heq]
    exact h
  · have hms : mid.max_size = c.max_size := rfl
    have h₃ := LRUCache.evict_length_le mid now (by rw [hms]; omega)
    rw [hms] at h₃
    exact h₃

/-- C2: when a set leaves the cache over capacity, the eviction pass first
removes every expired entry; the survivors number exactly
min(len(non-expired), capacity), so if still over capacity exactly
len - capacity further entries are removed; and every removed non-expired
entry has a last-access time at most that of every survivor (the evicted
keys are the least recently accessed ones). -/
theorem C2_evict_lru {V : Type} (c : LRUCache V) (now : Nat)
    (hover : c.max_size < c.data.length) (hnd : (kkeys c.data).Nodup) :
    (∀ p ∈ (c.evict_if_needed now).data,
        p.2.is_expired c.ttl_seconds now = false) ∧
    (c.evict_if_needed now).data.length =
      min (c.data.filter (fun p => !(p.2.is_expired c.ttl_seconds now))).length
        c.max_size ∧
    (∀ p ∈ c.data.filter (fun p => !(p.2.is_expired c.ttl_seconds now)),
        p ∉ (c.evict_if_needed now).data →
        ∀ q ∈ (c.evict_if_needed now).data,
          p.2.last_accessed ≤ q.2.last_accessed) := by
  simp only [LRUCache.evict_if_needed]
  rw [if_neg (by omega)]
  set alive := c.data.filter (fun p => !(p.2.is_expired c.ttl_seconds now))
    with halive
  have halive_ex : ∀ p ∈ alive, p.2.is_expired c.ttl_seconds now = false := by
    intro p hp
    have := (List.mem_filter.mp hp).2
    simpa using this
  by_cases h₂ : alive.length ≤ c.max_size
  · rw [if_pos h₂]
    refine ⟨halive_ex, (min_eq_left h₂).symm, ?_⟩
    intro p hp hnot
    exact absurd hp hnot
  · rw [if_neg h₂]
    set n := alive.length - c.max_size with hn
    set s := alive.mergeSort LRUCache.byLastAccessed with hs
    set pred := fun p : Nat × CacheEntry V => !((kkeys (s.take n)).contains p.1)
      with hpred
    have hperm : s.Perm alive := List.mergeSort_perm alive LRUCache.byLastAccessed
    have hsub : alive.Sublist c.data := List.filter_sublist _
    have hndalive : (kkeys alive).Nodup :=
      List.Nodup.sublist (hsub.map Prod.fst) hnd
    have hnds : (kkeys s).Nodup := ((hperm.map Prod.fst).nodup_iff).mpr hndalive
    have hsnodup : s.Nodup := List.Nodup.of_map Prod.fst hnds
    have hsplit : (s.take n) ++ (s.drop n) = s := List.take_append_drop n s
    have hsnodup₁ : ((s.take n) ++ (s.drop n)).Nodup := by
      rw [hsplit]
      exact hsnodup
    have hdisj : (s.take n).Disjoint (s.drop n) :=
      ((List.nodup_append.mp hsnodup₁).2).2
    have htail : (s.take n).filter pred = [] := by
      rw [List.filter_eq_nil_iff]
      intro p hp
      simp only [hpred, Bool.not_eq_true', Bool.not_eq_false, List.contains,
        List.elem_iff]
      exact mem_kkeys hp
    have hdroppred : ∀ y ∈ s.drop n, pred y = true := by
      intro y hy
      simp only [hpred, Bool.not_eq_true', Bool.eq_false_iff, ne_eq,
        List.contains, List.elem_iff]
      intro hymem
      obtain ⟨x, hx, hxy⟩ := List.mem_map.mp hymem
      have hxs : x ∈ s := (List.take_sublist n s).mem hx
      have hys : y ∈ s := (List.drop_sublist n s).mem hy
      have hxyeq : x = y := nodup_key_inj hnds hxs hys hxy
      exact hdisj hx (hxyeq ▸ hy)
    have hdrop : (s.drop n).filter pred = s.drop n :=
      List.filter_eq_self.mpr hdroppred
    have hfs : s.filter pred = s.drop n := by
      conv_lhs => rw [← hsplit]
      rw [List.filter_append, htail, hdrop, List.nil_append]
    have hslen : s.length = alive.length := hperm.length_eq
    have hflen : (alive.filter pred).length = (s.filter pred).length :=
      (hperm.filter pred).symm.length_eq
    refine ⟨?_, ?_, ?_⟩
    · intro p hp
      exact halive_ex p ((List.filter_sublist alive).mem hp)
    · show (alive.filter pred).length = min alive.length c.max_size
      rw [hflen, hfs, List.length_drop]
      omega
    · intro p hp hnot q hq
      have hps : p ∈ s := (hperm.mem_iff).mpr hp
      have hptake : p ∈ s.take n := by
        rcases List.mem_append.mp (by rw [hsplit]; exact hps) with h₃ | h₃
        · exact h₃
        · exfalso
          apply hnot
          exact ((hperm.filter pred).mem_iff).mp
            (by rw [hfs]; exact h₃)
      have hqs : q ∈ s.filter pred := ((hperm.filter pred).mem_iff).mpr hq
      have hqdrop : q ∈ s.drop n := by rw [← hfs]; exact hqs
      have hsorted :
          List.Pairwise (fun a b => LRUCache.byLastAccessed a b = true) s :=
        List.sorted_mergeSort LRUCache.byLastAccessed_trans
          LRUCache.byLastAccessed_total alive
      have hsorted₁ :
          List.Pairwise (fun a b => LRUCache.byLastAccessed a b = true)
            ((s.take n) ++ (s.drop n)) := by
        rw [hsplit]
        exact hsorted
      have hle : LRUCache.byLastAccessed p q = true :=
        ((List.pairwise_append.mp hsorted₁).2).2 p hptake q hqdrop
      simpa [LRUCache.byLastAccessed] using hle

/-- C2 (witness): on a concrete over-capacity cache the theorem applies:
capacity 2, three fresh entries with distinct last-access times; the
eviction keeps the two most recently accessed entries. -/
theorem C2_witness :
    (⟨[(1, ⟨10, 0, 5⟩), (2, ⟨20, 0, 3⟩), (3, ⟨30, 0, 9⟩)], 2, 3600⟩ :
        LRUCache Nat).max_size <
      (⟨[(1, ⟨10, 0, 5⟩), (2, ⟨20, 0, 3⟩), (3, ⟨30, 0, 9⟩)], 2, 3600⟩ :
        LRUCache Nat).data.length ∧
    (∀ p ∈ ((⟨[(1, ⟨10, 0, 5⟩), (2, ⟨20, 0, 3⟩), (3, ⟨30, 0, 9⟩)], 2, 3600⟩ :
        LRUCache Nat).evict_if_needed 10).data,
      p.2.is_expired 3600 10 = false) := by
  refine ⟨by decide, ?_⟩
  have h := C2_evict_lru
    (⟨[(1, ⟨10, 0, 5⟩), (2, ⟨20, 0, 3⟩), (3, ⟨30, 0, 9⟩)], 2, 3600⟩ :
      LRUCache Nat) 10 (by decide) (by decide)
  exact h.1

/-- C3: get returns absent when the key is missing or the entry has
expired; on a hit it returns the stored value and updates the last-access
time; and after set(k, v) followed by a time advance beyond the TTL, get
returns absent. -/
theorem C3_get_contract {V : Type} (c : LRUCache V) (k now : Nat) :
    (kget c.data k = none → (c.get k now).1 = none) ∧
    (∀ e : CacheEntry V, kget c.data k = some e →
        e.is_expired c.ttl_seconds now = true → (c.get k now).1 = none) ∧
    (∀ e : CacheEntry V, kget c.data k = some e →
        e.is_expired c.ttl_seconds now = false →
        (c.get k now).1 = some e.value ∧
        kget (c.get k now).2.data k = some (e.touch now)) ∧
    (∀ (d : LRUCache V) (v : V) (t₀ t₁ : Nat), (kkeys d.data).Nodup →
        d.ttl_seconds + t₀ < t₁ → ((d.set k v t₀).get k t₁).1 = none) := by
  refine ⟨?_, ?_, ?_, ?_⟩
  · intro h
    simp [LRUCache.get, h]
  · intro e h hexp
    simp [LRUCache.get, h, hexp]
  · intro e h hfresh
    refine ⟨by simp [LRUCache.get, h, hfresh], ?_⟩
    simp only [LRUCache.get, h, hfresh, Bool.false_eq_true, if_false]
    exact kget_kset_self c.data k (e.touch now)
  · intro d v t₀ t₁ hnd ht
    cases hk : kget (d.set k v t₀).data k with
    | none => simp [LRUCache.get, hk]
    | some e =>
        have hmem : (k, e) ∈ kset d.data k ⟨v, t₀, t₀⟩ :=
          (LRUCache.evict_data_sublist _ t₀).mem (kget_mem hk)
        have hndk : (kkeys (kset d.data k ⟨v, t₀, t₀⟩)).Nodup :=
          kset_nodup k _ hnd
        have he : e = ⟨v, t₀, t₀⟩ := by
          have h₁ := mem_kget hndk hmem
          rw [kget_kset_self] at h₁
          injection h₁ with h₂
          exact h₂.symm
        have hexp : e.is_expired (d.set k v t₀).ttl_seconds t₁ = true := by
          rw [he, LRUCache.set_ttl_eq]
          simp only [CacheEntry.is_expired, decide_eq_true_eq]
          omega
        simp [LRUCache.get, hk, hexp]

/-- C3 (witness): the contract applied at concrete inputs — an expired
entry on one cache, and a set followed by an over-TTL time advance on
another, both yielding absent. -/
theorem C3_witness :
    ((⟨[(1, ⟨42, 0, 0⟩)], 10, 3⟩ : LRUCache Nat).get 1 100).1 = none ∧
    (((⟨[], 10, 3⟩ : LRUCache Nat).set 1 7 0).get 1 100).1 = none := by
  constructor
  · exact (C3_get_contract (⟨[(1, ⟨42, 0, 0⟩)], 10, 3⟩ : LRUCache Nat) 1 100).2.1
      ⟨42, 0, 0⟩ rfl (by decide)
  · exact (C3_get_contract (⟨[], 10, 3⟩ : LRUCache Nat) 1 100).2.2.2
      (⟨[], 10, 3⟩ : LRUCache Nat) 7 0 100 (by decide) (by decide)

/-- C4: setGuildSettings(g, s) followed immediately by getGuildSettings(g)
returns s and performs zero storage reads, from any cache state whose
entries were all last accessed strictly before the write. -/
theorem C4_write_through_roundtrip (db : Database) (st : Storage)
    (g : Nat) (s : GuildSettings) (now : Nat)
    (hnd : (kkeys db.cache.guild_settings.data).Nodup)
    (hmax : 1 ≤ db.cache.guild_settings.max_size)
    (hlt : ∀ q ∈ db.cache.guild_settings.data, q.2.last_accessed < now) :
    ((db.set_guild_settings st g s now).2.get_guild_settings
        (db.set_guild_settings st g s now).1 g now).1 = s ∧
    ((db.set_guild_settings st g s now).2.get_guild_settings
        (db.set_guild_settings st g s now).1 g now).2.reads = db.reads := by
  have hkey := LRUCache.kget_set_self db.cache.guild_settings g s now hnd hmax
    (fun q hq _ => hlt q hq)
  have hget := LRUCache.get_hit_of_kget (db.cache.guild_settings.set g s now)
    g now ⟨s, now, now⟩ hkey (LRUCache.fresh_not_expired s _ now)
  simp only [Database.set_guild_settings, Database.get_guild_settings,
    SettingsCache.set_guild_settings, SettingsCache.get_guild_settings, hget]
  exact ⟨by trivial, by trivial⟩

/-- C4 (witness): the round trip at a concrete state: an empty cache, a
write of the default settings for guild 5 at time 10, then a read. -/
theorem C4_witness :
    (((Database.mk SettingsCache.init 0).set_guild_settings ⟨[], [], [], []⟩
          5 {} 10).2.get_guild_settings
        ((Database.mk SettingsCache.init 0).set_guild_settings ⟨[], [], [], []⟩
          5 {} 10).1 5 10).1 = ({} : GuildSettings) :=
  (C4_write_through_roundtrip (Database.mk SettingsCache.init 0)
    ⟨[], [], [], []⟩ 5 {} 10 (by decide) (by decide)
    (by intro q hq; simp [SettingsCache.init] at hq)).1

/-- C5 (counterexample): with an empty cache and a storage holding no row
for guild 5, two consecutive getGuildSettings calls perform two storage
reads, and after the first call the cache still has no entry for guild 5 —
the default is returned but not cached, contradicting the claim that the
cache is populated so that a second identical read fetches nothing. -/
theorem C5_counterexample :
    (((Database.mk SettingsCache.init 0).get_guild_settings ⟨[], [], [], []⟩
          5 0).2.get_guild_settings ⟨[], [], [], []⟩ 5 0).2.reads = 2 ∧
    kget (((Database.mk SettingsCache.init 0).get_guild_settings
          ⟨[], [], [], []⟩ 5 0).2.cache.guild_settings.data) 5 = none := by
  decide

/-- C5 (amended): on a cache miss with no storage row, the boost-count
read returns 0, caches it, and a second read performs no further storage
fetch; the guild-settings and user-settings reads return the default value
without populating the cache, so each repeated read fetches storage again. -/
theorem C5_amended_default_caching (db : Database) (st : Storage)
    (g u b now : Nat)
    (hmissg : kget db.cache.guild_settings.data g = none)
    (hrowg : kget st.guild_settings g = none)
    (hmissu : kget db.cache.user_settings.data u = none)
    (hrowu : kget st.user_settings u = none)
    (hmissb : kget db.cache.boost_counts.data b = none)
    (hrowb : kget st.boosts b = none)
    (hndb : (kkeys db.cache.boost_counts.data).Nodup)
    (hmaxb : 1 ≤ db.cache.boost_counts.max_size)
    (hltb : ∀ q ∈ db.cache.boost_counts.data, q.2.last_accessed < now) :
    db.get_guild_settings st g now = ({}, { db with reads := db.reads + 1 }) ∧
    ((db.get_guild_settings st g now).2.get_guild_settings st g now).2.reads
      = db.reads + 2 ∧
    db.get_user_setting st u now = (⟨1, 1, 0⟩, { db with reads := db.reads + 1 }) ∧
    ((db.get_user_setting st u now).2.get_user_setting st u now).2.reads
      = db.reads + 2 ∧
    (db.get_guild_boost_count st b now).1 = 0 ∧
    (db.get_guild_boost_count st b now).2.reads = db.reads + 1 ∧
    ((db.get_guild_boost_count st b now).2.get_guild_boost_count st b now).1 = 0 ∧
    ((db.get_guild_boost_count st b now).2.get_guild_boost_count st b now).2.reads
      = db.reads + 1 := by
  have hmg := LRUCache.get_miss_of_kget db.cache.guild_settings g now hmissg
  have hmu := LRUCache.get_miss_of_kget db.cache.user_settings u now hmissu
  have hmb := LRUCache.get_miss_of_kget db.cache.boost_counts b now hmissb
  have heqg : db.get_guild_settings st g now
      = ({}, { db with reads := db.reads + 1 }) := by
    simp only [Database.get_guild_settings, SettingsCache.get_guild_settings,
      hmg, hrowg]
  have hequ : db.get_user_setting st u now
      = (⟨1, 1, 0⟩, { db with reads := db.reads + 1 }) := by
    simp only [Database.get_user_setting, SettingsCache.get_user_setting,
      hmu, hrowu]
  have heqb : db.get_guild_boost_count st b now
      = (0, { db with
          cache := db.cache.set_boost_count b 0 now,
          reads := db.reads + 1 }) := by
    simp only [Database.get_guild_boost_count, SettingsCache.get_boost_count,
      SettingsCache.set_boost_count, hmb, hrowb]
  have hmg₂ := LRUCache.get_miss_of_kget
    ({ db with reads := db.reads + 1 } : Database).cache.guild_settings g now hmissg
  have hmu₂ := LRUCache.get_miss_of_kget
    ({ db with reads := db.reads + 1 } : Database).cache.user_settings u now hmissu
  have hkeyb := LRUCache.kget_set_self db.cache.boost_counts b 0 now hndb hmaxb
    (fun q hq _ => hltb q hq)
  have hgetb := LRUCache.get_hit_of_kget (db.cache.boost_counts.set b 0 now)
    b now ⟨0, now, now⟩ hkeyb (LRUCache.fresh_not_expired 0 _ now)
  refine ⟨heqg, ?_, hequ, ?_, ?_, ?_, ?_, ?_⟩
  · rw [heqg]
    simp only [Database.get_guild_settings, SettingsCache.get_guild_settings,
      hmg₂, hrowg]
  · rw [hequ]
    simp only [Database.get_user_setting, SettingsCache.get_user_setting,
      hmu₂, hrowu]
  · rw [heqb]
  · rw [heqb]
  · rw [heqb]
    simp only [Database.get_guild_boost_count, SettingsCache.get_boost_count,
      SettingsCache.set_boost_count, hgetb]
  · rw [heqb]
    simp only [Database.get_guild_boost_count, SettingsCache.get_boost_count,
      SettingsCache.set_boost_count, hgetb]

/-- C5 (witness): the amended behavior at a concrete state: empty cache
and empty storage, distinct identifiers, time 7. -/
theorem C5_witness :
    (Database.mk SettingsCache.init 0).get_guild_settings ⟨[], [], [], []⟩ 5 7
      = ({}, { Database.mk SettingsCache.init 0 with reads := 1 }) ∧
    ((Database.mk SettingsCache.init 0).get_guild_boost_count ⟨[], [], [], []⟩
        9 7).1 = 0 :=
  ⟨(C5_amended_default_caching (Database.mk SettingsCache.init 0)
      ⟨[], [], [], []⟩ 5 6 9 7 rfl rfl rfl rfl rfl rfl (by decide) (by decide)
      (by intro q hq; simp [SettingsCache.init] at hq)).1,
   (C5_amended_default_caching (Database.mk SettingsCache.init 0)
      ⟨[], [], [], []⟩ 5 6 9 7 rfl rfl rfl rfl rfl rfl (by decide) (by decide)
      (by intro q hq; simp [SettingsCache.init] at hq)).2.2.2.2.1⟩

/-- C6: for a loaded, active, non-global guild dictionary, a dictionary
UPDATE change event invalidates the cached copy, so the next getDictionary
performs exactly one storage fetch and returns the freshly fetched value,
and an immediately following getDictionary performs zero further fetches. -/
theorem C6_dict_reload_roundtrip (db : Database) (st : Storage)
    (g now : Nat) (d : GuildDictData)
    (hg0 : g ≠ 0)
    (hgid : g ≠ db.cache.global_dict_id)
    (hact : db.cache.is_guild_active g = true)
    (_hload : (db.cache.is_dict_loaded g now).1 = true)
    (hnd : (kkeys db.cache.dictionaries.data).Nodup)
    (hmax : 1 ≤ db.cache.dictionaries.max_size)
    (hlt : ∀ q ∈ db.cache.dictionaries.data, q.2.last_accessed < now)
    (hrow : kget st.dicts g = some d) :
    (db.handle_dict_change st ChangeOp.update g now).reads = db.reads ∧
    ((db.handle_dict_change st ChangeOp.update g now).get_dict st g now).1 = d ∧
    ((db.handle_dict_change st ChangeOp.update g now).get_dict st g now).2.reads
      = db.reads + 1 ∧
    (((db.handle_dict_change st ChangeOp.update g now).get_dict st g now).2.get_dict
        st g now).1 = d ∧
    (((db.handle_dict_change st ChangeOp.update g now).get_dict st g now).2.get_dict
        st g now).2.reads = db.reads + 1 := by
  have heq₁ : db.handle_dict_change st ChangeOp.update g now
      = { db with cache := db.cache.invalidate_dict g } := by
    simp only [Database.handle_dict_change]
    rw [if_neg hgid, if_pos hact]
  have heqc : db.cache.invalidate_dict g
      = { db.cache with dictionaries := (db.cache.dictionaries.delete g).2 } := by
    simp only [SettingsCache.invalidate_dict]
    rw [if_neg hgid]
  have hdel : kget (db.cache.dictionaries.delete g).2.data g = none :=
    LRUCache.kget_delete_self db.cache.dictionaries g hnd
  have hmiss := LRUCache.get_miss_of_kget (db.cache.dictionaries.delete g).2
    g now hdel
  have hmem : decide (g ∈ db.cache.active_voice_guilds) = true := hact
  have hcond : (decide (g ∈ db.cache.active_voice_guilds)
      || decide (g = db.cache.global_dict_id)) = true := by
    rw [hmem]
    rfl
  have heq₂ : ({ db with cache := { db.cache with
        dictionaries := (db.cache.dictionaries.delete g).2 } } :
        Database).get_dict st g now
      = (d, { db with
          cache := { db.cache with
            dictionaries := (db.cache.dictionaries.delete g).2.set g d now },
          reads := db.reads + 1 }) := by
    simp only [Database.get_dict, SettingsCache.get_dict,
      SettingsCache.set_dict, SettingsCache.is_guild_active]
    rw [if_neg hg0, if_neg hgid, hmiss]
    simp only [hrow]
    rw [if_pos hcond, if_neg hgid]
  have hnd₂ : (kkeys (db.cache.dictionaries.delete g).2.data).Nodup :=
    List.Nodup.sublist ((LRUCache.delete_data_sublist _ g).map Prod.fst) hnd
  have hmax₂ : 1 ≤ (db.cache.dictionaries.delete g).2.max_size := by
    rw [LRUCache.delete_max_eq]
    exact hmax
  have hlt₂ : ∀ q ∈ (db.cache.dictionaries.delete g).2.data,
      q.1 ≠ g → q.2.last_accessed < now := fun q hq _ =>
    hlt q ((LRUCache.delete_data_sublist _ g).mem hq)
  have hkey₂ := LRUCache.kget_set_self (db.cache.dictionaries.delete g).2
    g d now hnd₂ hmax₂ hlt₂
  have hget₂ := LRUCache.get_hit_of_kget
    ((db.cache.dictionaries.delete g).2.set g d now) g now ⟨d, now, now⟩
    hkey₂ (LRUCache.fresh_not_expired d _ now)
  have heq₃ : ({ db with
        cache := { db.cache with
          dictionaries := (db.cache.dictionaries.delete g).2.set g d now },
        reads := db.reads + 1 } : Database).get_dict st g now
      = (d, { db with
          cache := { db.cache with
            dictionaries := { (db.cache.dictionaries.delete g).2.set g d now with
              data := kset ((db.cache.dictionaries.delete g).2.set g d now).data
                g ((⟨d, now, now⟩ : CacheEntry GuildDictData).touch now) } },
          reads := db.reads + 1 }) := by
    simp only [Database.get_dict, SettingsCache.get_dict]
    rw [if_neg hg0, if_neg hgid, hget₂]
  rw [heq₁, heqc]
  exact ⟨rfl, by rw [heq₂], by rw [heq₂], by rw [heq₂, heq₃], by rw [heq₂, heq₃]⟩

/-- C6 (witness): the reload round trip at a concrete state: guild 5 is
active with a loaded dictionary cached at time 0, storage holds a row for
it, and the event is delivered at time 10. -/
theorem C6_witness :
    (((Database.mk { SettingsCache.init with
          active_voice_guilds := [5],
          dictionaries := ⟨[(5, ⟨[("x", "y")], 0, 0⟩)], 1000, 7200⟩ } 0).handle_dict_change
        ⟨[], [], [(5, [("x", "z")])], []⟩ ChangeOp.update 5 10).get_dict
        ⟨[], [], [(5, [("x", "z")])], []⟩ 5 10).1 = [("x", "z")] :=
  (C6_dict_reload_roundtrip
    (Database.mk { SettingsCache.init with
        active_voice_guilds := [5],
        dictionaries := ⟨[(5, ⟨[("x", "y")], 0, 0⟩)], 1000, 7200⟩ } 0)
    ⟨[], [], [(5, [("x", "z")])], []⟩ 5 10 [("x", "z")]
    (by decide) (by decide) (by decide) (by decide) (by decide) (by decide)
    (by decide) (by decide)).2.1

/-- C7 (counterexample): with the global dictionary identifier configured
to 7 and guild 7 in the active set, unloadForSession(7) removes 7 from the
active set, contradicting the claim that the global identifier's
active-set membership is left unchanged. -/
theorem C7_counterexample :
    (Database.mk { SettingsCache.init with
        global_dict_id := 7
        active_voice_guilds := [7]
        global_dict := some [("a", "b")] } 0).cache.is_guild_active 7 = true ∧
    ((Database.mk { SettingsCache.init with
        global_dict_id := 7
        active_voice_guilds := [7]
        global_dict := some [("a", "b")] } 0).unload_guild_dict 7).cache.is_guild_active
      7 = false := by
  decide

/-- C7 (amended): unloadForSession(globalId) leaves the global dictionary
slot and the dictionary LRU untouched, but does remove the global
identifier from the active set; for a nonzero global identifier with a
loaded global dictionary, a subsequent getDictionary(globalId) returns the
last known value with zero storage fetches. -/
theorem C7_amended_global_protect (db : Database) (g : Nat)
    (hg : g = db.cache.global_dict_id) (hnz : g ≠ 0) (d : GuildDictData)
    (hd : db.cache.global_dict = some d) :
    (db.unload_guild_dict g).cache.global_dict = some d ∧
    (db.unload_guild_dict g).cache.dictionaries = db.cache.dictionaries ∧
    (db.unload_guild_dict g).cache.is_guild_active g = false ∧
    ∀ st now, ((db.unload_guild_dict g).get_dict st g now).1 = d ∧
      ((db.unload_guild_dict g).get_dict st g now).2.reads = db.reads := by
  have heq : db.unload_guild_dict g
      = { db with cache := { db.cache with
          active_voice_guilds :=
            db.cache.active_voice_guilds.filter (fun x => x ≠ g) } } := by
    simp only [Database.unload_guild_dict, SettingsCache.remove_active_guild,
      SettingsCache.remove_dict]
    rw [if_pos hg]
  rw [heq]
  refine ⟨hd, rfl, ?_, ?_⟩
  · simp [SettingsCache.is_guild_active, List.mem_filter]
  · intro st now
    have hgd : ({ db with cache := { db.cache with
        active_voice_guilds :=
          db.cache.active_voice_guilds.filter (fun x => x ≠ g) } } :
        Database).get_dict st g now
        = (d, { db with cache := { db.cache with
            active_voice_guilds :=
              db.cache.active_voice_guilds.filter (fun x => x ≠ g) } }) := by
      simp only [Database.get_dict, SettingsCache.get_dict]
      rw [if_neg hnz, if_pos hg, hd]
    rw [hgd]
    exact ⟨rfl, rfl⟩

/-- C7 (witness): the amended statement at a concrete state with global
identifier 7, an active session for 7 and a loaded global dictionary. -/
theorem C7_witness :
    ((Database.mk { SettingsCache.init with
        global_dict_id := 7
        active_voice_guilds := [7]
        global_dict := some [("a", "b")] } 3).unload_guild_dict 7).cache.global_dict
      = some [("a", "b")] ∧
    (((Database.mk { SettingsCache.init with
        global_dict_id := 7
        active_voice_guilds := [7]
        global_dict := some [("a", "b")] } 3).unload_guild_dict 7).get_dict
        ⟨[], [], [], []⟩ 7 0).2.reads = 3 := by
  have h := C7_amended_global_protect
    (Database.mk { SettingsCache.init with
        global_dict_id := 7
        active_voice_guilds := [7]
        global_dict := some [("a", "b")] } 3) 7 rfl (by decide)
    [("a", "b")] rfl
  exact ⟨h.1, (h.2.2.2 ⟨[], [], [], []⟩ 0).2⟩

/-- C8: a boost-count change event carrying the absolute count sets the
cached value to exactly that count without any storage fetch, so after
either one or two deliveries of the same event getBoostCount returns that
count with zero storage reads, and the value after the first delivery
already equals the final one (no divergent intermediate value). -/
theorem C8_boost_idempotent (db : Database) (st : Storage)
    (g cnt now : Nat)
    (hnd : (kkeys db.cache.boost_counts.data).Nodup)
    (hmax : 1 ≤ db.cache.boost_counts.max_size)
    (hlt : ∀ q ∈ db.cache.boost_counts.data, q.2.last_accessed < now) :
    (db.handle_boost_change ChangeOp.update g (some (some cnt)) now).reads
      = db.reads ∧
    ((db.handle_boost_change ChangeOp.update g (some (some cnt))
        now).get_guild_boost_count st g now).1 = cnt ∧
    ((db.handle_boost_change ChangeOp.update g (some (some cnt))
        now).get_guild_boost_count st g now).2.reads = db.reads ∧
    (((db.handle_boost_change ChangeOp.update g (some (some cnt))
        now).handle_boost_change ChangeOp.update g (some (some cnt))
        now).get_guild_boost_count st g now).1 = cnt ∧
    (((db.handle_boost_change ChangeOp.update g (some (some cnt))
        now).handle_boost_change ChangeOp.update g (some (some cnt))
        now).get_guild_boost_count st g now).2.reads = db.reads := by
  have hkey₁ := LRUCache.kget_set_self db.cache.boost_counts g cnt now hnd hmax
    (fun q hq _ => hlt q hq)
  have hget₁ := LRUCache.get_hit_of_kget (db.cache.boost_counts.set g cnt now)
    g now ⟨cnt, now, now⟩ hkey₁ (LRUCache.fresh_not_expired cnt _ now)
  have hnd₂ : (kkeys (db.cache.boost_counts.set g cnt now).data).Nodup :=
    LRUCache.set_nodup g cnt now hnd
  have hmax₂ : 1 ≤ (db.cache.boost_counts.set g cnt now).max_size := by
    rw [LRUCache.set_max_eq]
    exact hmax
  have hlt₂ : ∀ q ∈ (db.cache.boost_counts.set g cnt now).data,
      q.1 ≠ g → q.2.last_accessed < now := by
    intro q hq hqg
    rcases LRUCache.set_data_mem hq with h₁ | h₁
    · exact absurd (by rw [h₁]) hqg
    · exact hlt q h₁
  have hkey₂ := LRUCache.kget_set_self (db.cache.boost_counts.set g cnt now)
    g cnt now hnd₂ hmax₂ hlt₂
  have hget₂ := LRUCache.get_hit_of_kget
    ((db.cache.boost_counts.set g cnt now).set g cnt now) g now
    ⟨cnt, now, now⟩ hkey₂ (LRUCache.fresh_not_expired cnt _ now)
  refine ⟨rfl, ?_, ?_, ?_, ?_⟩ <;>
    simp only [Database.handle_boost_change, Database.get_guild_boost_count,
      SettingsCache.set_boost_count, SettingsCache.get_boost_count,
      hget₁, hget₂]

/-- C8 (witness): the idempotence at a concrete state: empty cache, two
deliveries of a boost-count event with count 4 for guild 9 at time 2. -/
theorem C8_witness :
    (((Database.mk SettingsCache.init 0).handle_boost_change ChangeOp.update
        9 (some (some 4)) 2).get_guild_boost_count ⟨[], [], [], []⟩ 9 2).1 = 4 :=
  (C8_boost_idempotent (Database.mk SettingsCache.init 0) ⟨[], [], [], []⟩
    9 4 2 (by decide) (by decide)
    (by intro q hq; simp [SettingsCache.init] at hq)).2.1

/-- C9: when an INSERT or UPDATE payload for guild settings fails
validation, or a user-settings payload fails to decode, the handler leaves
the database in exactly the state a DELETE event for that key produces
(the key is invalidated); the handlers are total, so the failure never
propagates past the dispatcher. -/
theorem C9_decode_failure_is_delete (db : Database) (now : Nat) :
    (∀ g raw, GuildSettings.model_validate raw = none →
      db.handle_guild_settings_change ChangeOp.insert g (some raw) now
          = db.handle_guild_settings_change ChangeOp.delete g none now ∧
      db.handle_guild_settings_change ChangeOp.update g (some raw) now
          = db.handle_guild_settings_change ChangeOp.delete g none now) ∧
    (∀ u, db.handle_user_settings_change ChangeOp.insert u (some none) now
          = db.handle_user_settings_change ChangeOp.delete u none now ∧
      db.handle_user_settings_change ChangeOp.update u (some none) now
          = db.handle_user_settings_change ChangeOp.delete u none now) := by
  constructor
  · intro g raw hval
    constructor <;> simp [Database.handle_guild_settings_change, hval]
  · intro u
    constructor <;> simp [Database.handle_user_settings_change]

/-- C9 (witness): a concrete undecodable payload (max_chars = 9999 is
outside the validated range [10, 500]) handled as an UPDATE equals the
DELETE handling on a concrete state. -/
theorem C9_witness :
    (Database.mk SettingsCache.init 0).handle_guild_settings_change
        ChangeOp.update 5 (some { max_chars := 9999 }) 0
      = (Database.mk SettingsCache.init 0).handle_guild_settings_change
        ChangeOp.delete 5 none 0 :=
  ((C9_decode_failure_is_delete (Database.mk SettingsCache.init 0) 0).1
    5 { max_chars := 9999 } (by decide)).2

/-- C10: getDictionary with identifier 0 returns the empty mapping and
leaves the database (cache and read counter) untouched, before any cache
or storage access; and 0 is also the default global-dictionary identifier
set by the cache constructor. -/
theorem C10_get_dict_zero :
    (∀ (db : Database) (st : Storage) (now : Nat),
      db.get_dict st 0 now = ([], db)) ∧
    SettingsCache.init.global_dict_id = 0 := by
  constructor
  · intro db st now
    simp [Database.get_dict]
  · rfl

end SumireVox
